import Mathlib

/-!
Verification of the disaster-response ETL and training pipeline
(`data/process_data.py` and `models/train_classifier.py`).

The Python code is shallowly embedded: dataframes become lists of rows,
fallible pandas operations become `Option`-valued functions (`none` models a
raised exception or a NaN result), and the external NLTK primitives
(sentence splitter, word tokenizer, part-of-speech tagger, lemmatizer) are
passed as function parameters, since they are library code outside this
repository.
-/

namespace DisasterPipeline

/-! ## Character-level string primitives

Python's `str.split` / `str.strip` / `str.replace` / `str.lower` are modelled
by structural recursion over the character list, so that every concrete
instance reduces inside the kernel. -/

/-- `s.split(sep)` for a one-character separator, Python semantics:
`"".split(';') == ['']` and empty pieces are kept. -/
def chSplit (sep : Char) : List Char → List Char → List (List Char)
  | [], acc => [acc.reverse]
  | c :: cs, acc => if c = sep then acc.reverse :: chSplit sep cs [] else chSplit sep cs (c :: acc)

/-- Whether `s` starts with `pat`. -/
def chStarts : List Char → List Char → Bool
  | [], _ => true
  | _ :: _, [] => false
  | p :: ps, c :: cs => p = c && chStarts ps cs

/-- Replace every non-overlapping occurrence of `pat` (nonempty) by `rep`,
scanning left to right, as Python `str.replace` does.  The fuel argument is
the length of the text; every step consumes at least one character. -/
def chReplaceAux (pat rep : List Char) : ℕ → List Char → List Char
  | 0, s => s
  | _ + 1, [] => []
  | fuel + 1, c :: cs =>
    if chStarts pat (c :: cs) then rep ++ chReplaceAux pat rep fuel ((c :: cs).drop pat.length)
    else c :: chReplaceAux pat rep fuel cs

/-- `s.replace(pat, rep)`.  The source only replaces nonempty patterns, so the
empty pattern is mapped to the identity. -/
def strReplace (s pat rep : String) : String :=
  if pat.isEmpty then s
  else String.mk (chReplaceAux pat.toList rep.toList s.toList.length s.toList)

/-- `s.split(sep)` for a one-character separator. -/
def strSplit (s : String) (sep : Char) : List String :=
  (chSplit sep s.toList []).map String.mk

/-- `s.strip()`: remove leading and trailing whitespace. -/
def strStrip (s : String) : String :=
  String.mk (((s.toList.dropWhile Char.isWhitespace).reverse.dropWhile Char.isWhitespace).reverse)

/-- `s.lower()`. -/
def strLower (s : String) : String :=
  String.mk (s.toList.map Char.toLower)

/-! ## `data/process_data.py` -/

/-- One input row of the merged dataframe handed to `clean_data`: the
non-category columns (id, message, original, genre) and the raw
`categories` string such as `"related-1;request-0"`. -/
structure RawRow where
  base : List String
  categories : String
  deriving DecidableEq, Repr

/-- `df['categories'].str.split(';', expand=True)` applied to one cell. -/
def splitFields (s : String) : List String :=
  strSplit s ';' 

/-- Column names from a row-0 field:
`s.replace('-2', '').replace('-1', '').replace('-0', '')`. -/
def categoryColName (s : String) : String :=
  strReplace (strReplace (strReplace s "-2" "") "-1" "") "-0" ""

/-- `categories[column].str.strip().str[-1]` followed by `.astype(int)` on one
field: the last character of the whitespace-stripped field, parsed as an
integer.  `none` models the `ValueError` raised by `astype(int)` on a
non-digit character, and the failure on a missing value. -/
def parseCategoryValue (field : String) : Option ℤ :=
  match (strStrip field).toList.getLast? with
  | none => none
  | some c => if c.isDigit then some ((c.toNat : ℤ) - 48) else none

/-- `categories.replace(to_replace=2, value=1)` applied to one cell. -/
def correctValue (v : ℤ) : ℤ :=
  if v = 2 then 1 else v

/-- Map a fallible function over a list, failing as soon as one element
fails (the pandas conversion raises on the first bad cell). -/
def optionMap (f : α → Option β) : List α → Option (List β)
  | [] => some []
  | x :: xs =>
    match f x, optionMap f xs with
    | some y, some ys => some (y :: ys)
    | _, _ => none

/-- Parse all category fields of one row (the per-column `astype(int)` loop
followed by the dataframe-wide `replace(2, 1)`). -/
def parseRowValues (fields : List String) : Option (List ℤ) :=
  (optionMap parseCategoryValue fields).map (fun vs => vs.map correctValue)

/-- `drop_duplicates` keeps the first occurrence of each row. -/
def dropDupsAux [DecidableEq α] (seen : List α) : List α → List α
  | [] => []
  | x :: xs => if x ∈ seen then dropDupsAux seen xs else x :: dropDupsAux (x :: seen) xs

/-- `df.drop_duplicates()`: remove exact-duplicate rows, keeping first
occurrences. -/
def dropDuplicates [DecidableEq α] (l : List α) : List α :=
  dropDupsAux [] l

/-- Steps 3–5 of `clean_data`: split the `categories` strings, derive the
column names from row 0, convert each field to an integer (last character of
the stripped field), apply the `2 → 1` replacement, concatenate with the
non-category columns, and remove duplicate rows.  `none` models a raised
exception: an empty dataframe (row-0 lookup fails), a ragged split (pandas
pads with NaN and `astype(int)` then raises), or a non-digit field. -/
def cleanJoined (df : List RawRow) : Option (List String × List (List String × List ℤ)) :=
  match df with
  | [] => none
  | r0 :: _ =>
    let colnames := (splitFields r0.categories).map categoryColName
    let parsed := optionMap (fun r =>
      let fields := splitFields r.categories
      if fields.length = colnames.length then
        (parseRowValues fields).map (fun vs => (r.base, vs))
      else
        none) df
    parsed.map (fun rows => (colnames, dropDuplicates rows))

/-- `clean_data`: steps 3–5 (`cleanJoined`) followed by step 6,
`df.drop(['child_alone'], axis=1)`.  Dropping a column name that is absent
raises a `KeyError`, modelled as `none`. -/
def clean_data (df : List RawRow) : Option (List String × List (List String × List ℤ)) :=
  match cleanJoined df with
  | none => none
  | some (hdr, rows) =>
    if "child_alone" ∈ hdr then
      let i := hdr.indexOf "child_alone"
      some (hdr.eraseIdx i, rows.map (fun r => (r.1, r.2.eraseIdx i)))
    else
      none

/-- The table name `save_data` computes from the database filename:
`database_filename.replace('.db','') + '_table'`. -/
def computed_table_name (database_filename : String) : String :=
  (strReplace database_filename ".db" "") ++ "_table"

/-- The observable effect of `save_data`: which SQLite engine URL it opens and
which table it writes.  The `to_sql` call uses the string literal
`'DisasterResponse_table'`, not the computed `table_name`. -/
structure SaveEffect where
  engineUrl : String
  tableName : String
  deriving DecidableEq, Repr

/-- `save_data df database_filename`: opens `'sqlite:///' + database_filename`
and writes the dataframe with `df.to_sql('DisasterResponse_table', ...)`. -/
def save_data (database_filename : String) : SaveEffect :=
  { engineUrl := "sqlite:///" ++ database_filename
    tableName := "DisasterResponse_table" }

/-- The table `load_data_from_db` reads:
`pd.read_sql_table('DisasterResponse_table', engine)`. -/
def load_table_name : String :=
  "DisasterResponse_table"

/-- The engine URL `load_data_from_db` opens:
`'sqlite:///{}'.format(database_filepath)`. -/
def load_engine_url (database_filepath : String) : String :=
  "sqlite:///" ++ database_filepath

/-! ## `models/train_classifier.py`: `tokenize`

The regular expression
`http[s]?://(?:[a-zA-Z]|[0-9]|[$-_@.&+]|[!*\(\),]|(?:%[0-9a-fA-F][0-9a-fA-F]))+`
is embedded directly: the `%xx` escape alternative consumes characters that
are each already in the `[$-_]` range, so a greedy match is the scheme
followed by the maximal nonempty run of characters of the union class. -/

/-- A character matched inside the body of the URL pattern: `[a-zA-Z]`,
`[0-9]`, the range `[$-_]` (which contains the literals `@.&+` as well as
`%` and the hex digits of the `%xx` alternative), or one of `!*(),`. -/
def isUrlChar (c : Char) : Bool :=
  c.isAlpha || c.isDigit || ('$' ≤ c && c ≤ '_') ||
    c = '!' || c = '*' || c = '(' || c = ')' || c = ','

/-- Try to match the URL pattern at the head of `cs`: the scheme
(`https://` preferred, as the optional `s` is matched greedily) followed by at
least one URL character.  Returns the match and the remaining text. -/
def matchUrlAt (cs : List Char) : Option (List Char × List Char) :=
  let scheme : Option (List Char × List Char) :=
    if chStarts "https://".toList cs then some ("https://".toList, cs.drop 8)
    else if chStarts "http://".toList cs then some ("http://".toList, cs.drop 7)
    else none
  match scheme with
  | none => none
  | some (pre, rest) =>
    let run := rest.takeWhile isUrlChar
    if run.isEmpty then none else some (pre ++ run, rest.dropWhile isUrlChar)

/-- `re.findall(url_re, text)`: non-overlapping matches, scanning left to
right; on a failed position the scan advances one character.  The fuel is the
text length; every step consumes at least one character. -/
def scanUrlsAux : ℕ → List Char → List (List Char)
  | 0, _ => []
  | _ + 1, [] => []
  | fuel + 1, c :: cs =>
    match matchUrlAt (c :: cs) with
    | some (url, rest) => url :: scanUrlsAux fuel rest
    | none => scanUrlsAux fuel cs

/-- `detect_urls = re.findall(url_re, text)`. -/
def findUrls (text : String) : List String :=
  (scanUrlsAux text.toList.length text.toList).map String.mk

/-- The default `url_placeholder` parameter of `tokenize`. -/
def url_placeholder : String := "urlplaceholder"

/-- The replacement loop of `tokenize`:
`for detect_url in detect_urls: text = text.replace(detect_url, url_placeholder)`. -/
def replaceUrls (text : String) : String :=
  (findUrls text).foldl (fun acc u => strReplace acc u url_placeholder) text

/-- `tokenize(text)`: replace URLs by the placeholder, split into word tokens
with `nltk.word_tokenize`, then map each token through
`lemmatizer.lemmatize(w).lower().strip()`.  `wordTok` models
`nltk.word_tokenize` and `lem` models `WordNetLemmatizer().lemmatize`; both
are external NLTK code. -/
def tokenize (wordTok : String → List String) (lem : String → String) (text : String) :
    List String :=
  (wordTok (replaceUrls text)).map (fun w => strStrip (strLower (lem w)))

/-! ## `models/train_classifier.py`: `StartingVerbExtractor` -/

/-- The sentence loop of `StartingVerbExtractor.starting_verb`.
`tagOfSentence` models `nltk.pos_tag(tokenize(sentence))`.  The access
`pos_tags[0]` raises `IndexError` when the tag list is empty; that raise is
modelled as `none`. -/
def startingVerbLoop (tagOfSentence : String → List (String × String)) :
    List String → Option Bool
  | [] => some false
  | s :: rest =>
    match tagOfSentence s with
    | [] => none
    | (w, t) :: _ =>
      if t = "VB" ∨ t = "VBP" ∨ w = "RT" then some true
      else startingVerbLoop tagOfSentence rest

/-- `StartingVerbExtractor.starting_verb(text)`: split `text` into sentences
with `nltk.sent_tokenize` (modelled by `sentTok`), then run the sentence loop
with `nltk.pos_tag` (modelled by `posTag`) over the repository's `tokenize`. -/
def starting_verb (wordTok : String → List String) (lem : String → String)
    (posTag : List String → List (String × String)) (sentTok : String → List String)
    (text : String) : Option Bool :=
  startingVerbLoop (fun s => posTag (tokenize wordTok lem s)) (sentTok text)

/-- Whether one sentence satisfies the test of the loop body: its first
tagged token has tag `VB`/`VBP` or is the word `RT`; `false` when the
sentence has no tagged tokens. -/
def sentenceFlag (tagOfSentence : String → List (String × String)) (s : String) : Bool :=
  match tagOfSentence s with
  | [] => false
  | (w, t) :: _ => decide (t = "VB" ∨ t = "VBP" ∨ w = "RT")

/-- The claim's reading of `starting_verb`, following the spec's words
(§4.2): only the FIRST sentence is inspected, and the empty cases (no
sentences, no tokens) give `false` instead of an error. -/
def starting_verb_first_spec (wordTok : String → List String) (lem : String → String)
    (posTag : List String → List (String × String)) (sentTok : String → List String)
    (text : String) : Option Bool :=
  match sentTok text with
  | [] => some false
  | s :: _ =>
    match posTag (tokenize wordTok lem s) with
    | [] => some false
    | (w, t) :: _ => some (decide (t = "VB" ∨ t = "VBP" ∨ w = "RT"))

/-! ## `models/train_classifier.py`: `multioutput_fscore`

`sklearn.metrics.fbeta_score(y_true, y_pred, beta, average='weighted')` is
embedded over `ℚ`: per present class, precision, recall and the F-beta
combination with the `zero_division` convention (a zero denominator scores
0), averaged with the class supports as weights.  `scipy.stats.gmean` of a
nonempty list of floats is the real geometric mean; on the empty list it
yields NaN, modelled as `none`. -/

/-- True positives of class `c`: positions where both the actual and the
predicted label equal `c`. -/
def tpCount (c : ℚ) (yt yp : List ℚ) : ℕ :=
  (yt.zip yp).countP (fun ab => ab.1 == c && ab.2 == c)

/-- Precision for class `c`; 0 when nothing is predicted as `c`. -/
def precisionC (c : ℚ) (yt yp : List ℚ) : ℚ :=
  if yp.count c = 0 then 0 else (tpCount c yt yp : ℚ) / (yp.count c : ℚ)

/-- Recall for class `c`; 0 when `c` has no support in `yt`. -/
def recallC (c : ℚ) (yt yp : List ℚ) : ℚ :=
  if yt.count c = 0 then 0 else (tpCount c yt yp : ℚ) / (yt.count c : ℚ)

/-- F-beta of class `c`: `(1+β²)·p·r / (β²·p + r)`, 0 on a zero
denominator. -/
def fbetaC (beta c : ℚ) (yt yp : List ℚ) : ℚ :=
  if beta ^ 2 * precisionC c yt yp + recallC c yt yp = 0 then 0
  else (1 + beta ^ 2) * precisionC c yt yp * recallC c yt yp /
    (beta ^ 2 * precisionC c yt yp + recallC c yt yp)

/-- `fbeta_score(yt, yp, beta, average='weighted')`: the support-weighted
average of the per-class F-beta scores over the classes present in either
argument; 0 when the total support is 0. -/
def fbeta_weighted (yt yp : List ℚ) (beta : ℚ) : ℚ :=
  if ((yt ++ yp).dedup.map (fun c => (yt.count c : ℚ))).sum = 0 then 0
  else ((yt ++ yp).dedup.map (fun c => (yt.count c : ℚ) * fbetaC beta c yt yp)).sum /
    ((yt ++ yp).dedup.map (fun c => (yt.count c : ℚ))).sum

/-- `y[:, j]` of the label matrix, rows as lists. -/
def columnOf (m : List (List ℚ)) (j : ℕ) : List ℚ :=
  m.map (fun row => row.getD j 0)

/-- `y_actual.shape[1]` of a rectangular matrix. -/
def numCols (m : List (List ℚ)) : ℕ :=
  (m.headD []).length

/-- The `f1score_list` loop of `multioutput_fscore`: one weighted F-beta
score per label column. -/
def f1score_list (yt yp : List (List ℚ)) (beta : ℚ) : List ℚ :=
  (List.range (numCols yt)).map
    (fun j => fbeta_weighted (columnOf yt j) (columnOf yp j) beta)

/-- `scipy.stats.gmean`: the geometric mean `(∏ l) ^ (1 / |l|)` of a nonempty
list; on the empty list `gmean` produces NaN, modelled as `none`. -/
noncomputable def gmeanOpt (l : List ℚ) : Option ℝ :=
  if l = [] then none
  else some (Real.rpow ((l.map (fun q => (q : ℝ))).prod) (1 / (l.length : ℝ)))

/-- `multioutput_fscore(y_actual, y_estimators, beta)`: the geometric mean of
the per-column scores after `f1score = f1score[f1score < 1]`. -/
noncomputable def multioutput_fscore (yt yp : List (List ℚ)) (beta : ℚ) : Option ℝ :=
  gmeanOpt ((f1score_list yt yp beta).filter (fun s => decide (s < 1)))

/-- The evaluator as the spec words it (§4.7): drop any per-column score
exactly equal to 1.0, then take the geometric mean of the remainder. -/
noncomputable def evaluator_score_spec (yt yp : List (List ℚ)) (beta : ℚ) : Option ℝ :=
  gmeanOpt ((f1score_list yt yp beta).filter (fun s => decide (s ≠ 1)))

/-! ## `models/train_classifier.py`: `build_pipeline` grid search -/

/-- `'classifier__estimator__learning_rate': [0.01, 0.02, 0.05]`. -/
def learning_rate_candidates : List ℚ := [1/100, 2/100, 5/100]

/-- `'classifier__estimator__n_estimators': [10, 20, 40]`. -/
def n_estimators_candidates : List ℕ := [10, 20, 40]

/-- The declared parameter grid: every (learning rate, ensemble size)
combination. -/
def param_grid : List (ℚ × ℕ) :=
  learning_rate_candidates.flatMap (fun lr => n_estimators_candidates.map (fun n => (lr, n)))

/-- Modelled from the spec: `GridSearchCV` internals are sklearn library
code, not part of this repository; §4.6 describes them as k-fold
cross-validation per grid point with the fold scores averaged.  `folds` is
the list of (train, validation) splits, `fit` trains a classifier with the
given parameters, `score` is the micro-averaged F1 scorer. -/
def cvMeanScore {D M : Type} (folds : List (D × D)) (fit : ℚ × ℕ → D → M)
    (score : M → D → ℚ) (p : ℚ × ℕ) : ℚ :=
  ((folds.map (fun f => score (fit p f.1) f.2)).sum) / (folds.length : ℚ)

/-- Modelled from the spec: selection of the grid point with the highest mean
score (first one on ties, as a deterministic argmax). -/
def selectBest (f : ℚ × ℕ → ℚ) : List (ℚ × ℕ) → Option (ℚ × ℕ)
  | [] => none
  | p :: ps => some (ps.foldl (fun best q => if f best < f q then q else best) p)

/-- Modelled from the spec (§4.6): exhaustive search over the grid, scoring
each point by cross-validated mean score, exposing `best_params_` and the
classifier refit on the full training set as `best_estimator_`. -/
def gridSearch {D M : Type} (grid : List (ℚ × ℕ)) (folds : List (D × D))
    (fit : ℚ × ℕ → D → M) (score : M → D → ℚ) (fullTrain : D) :
    Option ((ℚ × ℕ) × M) :=
  (selectBest (cvMeanScore folds fit score) grid).map (fun p => (p, fit p fullTrain))

/-! ## Concrete instances of the external NLTK primitives

Used to evaluate the embedded functions at specific inputs.  Each one is a
possible behaviour of the corresponding NLTK function on the inputs it is
applied to. -/

/-- A sentence splitter producing two sentences, the second starting with an
imperative verb. -/
def cxSentTok : String → List String := fun _ => ["He runs.", "Run now."]

/-- A word tokenizer returning the sentence as a single token. -/
def cxWordTok : String → List String := fun s => [s]

/-- A lemmatizer acting as the identity. -/
def cxLem : String → String := fun s => s

/-- A part-of-speech tagger: the (lower-cased) second sentence is tagged as a
base-form verb, anything else as a noun. -/
def cxPosTag : List String → List (String × String) :=
  fun ts => ts.map (fun w => (w, if w = "run now." then "VB" else "NN"))

/-- A word tokenizer producing no tokens (the behaviour of
`nltk.word_tokenize` on an empty or whitespace-only sentence). -/
def noTokWT : String → List String := fun _ => []

/-- A tagger assigning `NN` to every token (so `pos_tag [] = []`). -/
def posTagNN : List String → List (String × String) := fun ts => ts.map (fun w => (w, "NN"))

/-- A sentence splitter returning no sentences (`sent_tokenize("") == []`). -/
def noSentence : String → List String := fun _ => []

/-- A sentence splitter returning one empty sentence. -/
def oneEmptySentence : String → List String := fun _ => [""]

/-- A word tokenizer with the behaviour of `nltk.word_tokenize` on the
post-replacement text of the C7 test message. -/
def wt7 : String → List String :=
  fun s => if s = "Check urlplaceholder now" then ["Check", "urlplaceholder", "now"] else []

/-- A trivial classifier trainer over a unit dataset, used to evaluate the
grid-search model at a concrete instance. -/
def trivFit : ℚ × ℕ → Unit → Unit := fun _ _ => ()

/-- A trivial scorer over a unit dataset. -/
def trivScore : Unit → Unit → ℚ := fun _ _ => 0

/-! ## Helper lemmas -/

theorem optionMap_length {f : α → Option β} :
    ∀ {l : List α} {l' : List β}, optionMap f l = some l' → l'.length = l.length := by
  intro l
  induction l with
  | nil => intro l' h; simp [optionMap] at h; simp [← h]
  | cons x xs ih =>
    intro l' h
    unfold optionMap at h
    cases hx : f x with
    | none => rw [hx] at h; simp at h
    | some y =>
      rw [hx] at h
      cases hxs : optionMap f xs with
      | none => rw [hxs] at h; simp at h
      | some ys =>
        rw [hxs] at h
        simp at h
        simp [← h, ih hxs]

theorem dropDupsAux_length_le [DecidableEq α] :
    ∀ (l seen : List α), (dropDupsAux seen l).length ≤ l.length := by
  intro l
  induction l with
  | nil => intro seen; simp [dropDupsAux]
  | cons x xs ih =>
    intro seen
    unfold dropDupsAux
    split
    · exact Nat.le_succ_of_le (ih seen)
    · simpa using ih (x :: seen)

theorem dropDupsAux_not_mem_seen [DecidableEq α] :
    ∀ (l seen : List α), ∀ a ∈ dropDupsAux seen l, a ∉ seen := by
  intro l
  induction l with
  | nil => intro seen a ha; simp [dropDupsAux] at ha
  | cons x xs ih =>
    intro seen a ha
    unfold dropDupsAux at ha
    split at ha
    · exact ih seen a ha
    · rcases List.mem_cons.mp ha with rfl | hmem
      · assumption
      · intro hseen
        exact ih (x :: seen) a hmem (List.mem_cons_of_mem x hseen)

theorem dropDupsAux_nodup [DecidableEq α] :
    ∀ (l seen : List α), (dropDupsAux seen l).Nodup := by
  intro l
  induction l with
  | nil => intro seen; simp [dropDupsAux]
  | cons x xs ih =>
    intro seen
    unfold dropDupsAux
    split
    · exact ih seen
    · refine List.nodup_cons.mpr ⟨?_, ih (x :: seen)⟩
      intro hx
      exact dropDupsAux_not_mem_seen xs (x :: seen) x hx (List.mem_cons_self x seen)

theorem dropDuplicates_nodup [DecidableEq α] (l : List α) : (dropDuplicates l).Nodup :=
  dropDupsAux_nodup l []

theorem dropDuplicates_length_le [DecidableEq α] (l : List α) :
    (dropDuplicates l).length ≤ l.length :=
  dropDupsAux_length_le l []

theorem cleanJoined_some {df : List RawRow} {hdr : List String}
    {rows : List (List String × List ℤ)} (h : cleanJoined df = some (hdr, rows)) :
    ∃ parsed, rows = dropDuplicates parsed ∧ parsed.length = df.length := by
  match df with
  | [] => simp [cleanJoined] at h
  | r0 :: rest =>
    unfold cleanJoined at h
    rw [Option.map_eq_some'] at h
    obtain ⟨parsed, hp, heq⟩ := h
    refine ⟨parsed, ?_, optionMap_length hp⟩
    have := (Prod.mk.injEq _ _ _ _).mp heq
    exact this.2.symm

theorem clean_data_some {df : List RawRow} {out : List String × List (List String × List ℤ)}
    (h : clean_data df = some out) :
    ∃ hdr rows, cleanJoined df = some (hdr, rows) ∧
      out.2 = rows.map (fun r => (r.1, r.2.eraseIdx (hdr.indexOf "child_alone"))) := by
  unfold clean_data at h
  cases hcj : cleanJoined df with
  | none => rw [hcj] at h; simp at h
  | some p =>
    obtain ⟨hdr, rows⟩ := p
    rw [hcj] at h
    have h' : (if "child_alone" ∈ hdr then
        some (hdr.eraseIdx (hdr.indexOf "child_alone"),
          rows.map (fun r => (r.1, r.2.eraseIdx (hdr.indexOf "child_alone"))))
      else (none : Option (List String × List (List String × List ℤ)))) = some out := h
    by_cases hmem : "child_alone" ∈ hdr
    · rw [if_pos hmem] at h'
      refine ⟨hdr, rows, rfl, ?_⟩
      rw [← Option.some.inj h']
    · rw [if_neg hmem] at h'
      simp at h'

/-! ## Claims about `process_data.py` -/

/-- Claim C5 (counterexample): a category field whose value is `3` is not
rejected by `clean_data`; the `3` passes through to the output unchanged
(only the value `2` is replaced by `1`). -/
theorem clean_data_accepts_value_three :
    clean_data [⟨["1", "m"], "related-3;child_alone-0"⟩] =
      some (["related-3"], [(["1", "m"], [3])]) ∧
    clean_data [⟨["1", "m"], "related-3;child_alone-0"⟩] ≠ none := by
  constructor
  · decide
  · decide

/-- Claim C5 (amended): cleaning maps the category value 2 to 1 and leaves 0
and 1 unchanged, but any other parsed value passes through unchanged rather
than being rejected; only a field whose last character is not a digit is
rejected (at integer conversion). -/
theorem correctValue_behaviour :
    correctValue 2 = 1 ∧ correctValue 0 = 0 ∧ correctValue 1 = 1 ∧
    (∀ v : ℤ, v ≠ 2 → correctValue v = v) ∧
    parseCategoryValue "related-x" = none := by
  refine ⟨by decide, by decide, by decide, ?_, by decide⟩
  intro v hv
  simp [correctValue, hv]

/-- Claim C5 (witness): the non-2 value 5 is left unchanged. -/
theorem correctValue_behaviour_witness : correctValue 5 = 5 :=
  correctValue_behaviour.2.2.2.1 5 (by decide)

/-- Claim C6 (counterexample): two rows that differ only in the
`child_alone` category survive `drop_duplicates` (performed before the
column drop), so the cleaned output contains two identical rows. -/
theorem clean_data_duplicate_rows :
    clean_data [⟨["1", "m"], "related-0;child_alone-0"⟩,
                ⟨["1", "m"], "related-0;child_alone-1"⟩] =
      some (["related"], [(["1", "m"], [0]), (["1", "m"], [0])]) ∧
    ¬ ([(["1", "m"], ([0] : List ℤ)), (["1", "m"], [0])]).Nodup := by
  constructor
  · decide
  · decide

/-- Claim C6 (amended): whenever `clean_data` succeeds, the output row count
is at most the input row count and the deduplicated table (before the
`child_alone` drop) has no duplicate rows — both unconditionally; the final
output has no duplicate rows provided no two deduplicated rows differ solely
in the dropped `child_alone` column. -/
theorem clean_data_row_count_and_dedup (df : List RawRow) (hdr : List String)
    (rows : List (List String × List ℤ)) (out : List String × List (List String × List ℤ))
    (h : cleanJoined df = some (hdr, rows)) (h2 : clean_data df = some out) :
    rows.Nodup ∧ rows.length ≤ df.length ∧ out.2.length ≤ df.length ∧
    ((∀ r ∈ rows, ∀ r' ∈ rows, r.1 = r'.1 →
        r.2.eraseIdx (hdr.indexOf "child_alone") = r'.2.eraseIdx (hdr.indexOf "child_alone") →
        r = r') →
      out.2.Nodup) := by
  obtain ⟨parsed, hrows, hlen⟩ := cleanJoined_some h
  have hnodup : rows.Nodup := hrows ▸ dropDuplicates_nodup parsed
  have hle : rows.length ≤ df.length := by
    rw [hrows, ← hlen]; exact dropDuplicates_length_le parsed
  obtain ⟨hdr', rows', hcj', hout⟩ := clean_data_some h2
  have heq : (hdr, rows) = (hdr', rows') := Option.some.inj (h.symm.trans hcj')
  obtain ⟨hh, hr⟩ := (Prod.mk.injEq _ _ _ _).mp heq
  subst hh; subst hr
  refine ⟨hnodup, hle, ?_, ?_⟩
  · rw [hout, List.length_map]
    exact hle
  · intro hsole
    rw [hout]
    refine List.Nodup.map_on ?_ hnodup
    intro x hx y hy hf
    exact hsole x hx y hy ((Prod.mk.injEq _ _ _ _).mp hf).1 ((Prod.mk.injEq _ _ _ _).mp hf).2

/-- Claim C6 (witness): a one-row dataframe cleans with the row-count bound
and the no-duplicates properties holding before and after the column drop. -/
theorem clean_data_row_count_and_dedup_witness :
    ([(["1", "m"], ([1, 0] : List ℤ))]).Nodup ∧
    ([(["1", "m"], ([1, 0] : List ℤ))]).length ≤
      ([(⟨["1", "m"], "related-1;child_alone-0"⟩ : RawRow)]).length ∧
    ((["related"], [(["1", "m"], ([1] : List ℤ))]) :
      List String × List (List String × List ℤ)).2.length ≤
      ([(⟨["1", "m"], "related-1;child_alone-0"⟩ : RawRow)]).length ∧
    ((∀ r ∈ [(["1", "m"], ([1, 0] : List ℤ))], ∀ r' ∈ [(["1", "m"], ([1, 0] : List ℤ))],
        r.1 = r'.1 →
        r.2.eraseIdx (["related", "child_alone"].indexOf "child_alone") =
          r'.2.eraseIdx (["related", "child_alone"].indexOf "child_alone") →
        r = r') →
      ((["related"], [(["1", "m"], ([1] : List ℤ))]) :
        List String × List (List String × List ℤ)).2.Nodup) :=
  clean_data_row_count_and_dedup
    [⟨["1", "m"], "related-1;child_alone-0"⟩]
    ["related", "child_alone"]
    [(["1", "m"], [1, 0])]
    ((["related"], [(["1", "m"], [1])]))
    (by decide) (by decide)

/-- Claim C9: `save_data` writes the cleaned table under the fixed name
`'DisasterResponse_table'` for every database filename (the computed
`table_name` is ignored, as witnessed by a filename where the two differ),
and `load_data_from_db` reads exactly that fixed name over the same engine
URL format, so the ETL-to-training round trip resolves the same table. -/
theorem save_load_same_table :
    (∀ db : String, (save_data db).tableName = load_table_name) ∧
    (∀ db : String, (save_data db).engineUrl = load_engine_url db) ∧
    computed_table_name "disaster.db" = "disaster_table" ∧
    (save_data "disaster.db").tableName = "DisasterResponse_table" := by
  refine ⟨fun db => rfl, fun db => rfl, by decide, rfl⟩

/-- Claim C10: a category field is parsed as the single last character of
the whitespace-stripped field: the parse only depends on that character, a
field ending in the digit `0` (such as `related-10`) yields the value 0
inside a successful `clean_data` run, and a field ending in a non-digit
makes `clean_data` fail with a conversion error. -/
theorem parse_uses_last_character (s t : String)
    (h : (strStrip s).toList.getLast? = (strStrip t).toList.getLast?) :
    parseCategoryValue s = parseCategoryValue t ∧
    parseCategoryValue " related-10 " = some 0 ∧
    clean_data [⟨["1", "m"], "related-10;child_alone-0"⟩] =
      some (["related0"], [(["1", "m"], [0])]) ∧
    clean_data [⟨["1", "m"], "related-x;child_alone-0"⟩] = none := by
  refine ⟨?_, by decide, by decide, by decide⟩
  unfold parseCategoryValue
  rw [h]

/-- Claim C10 (witness): two fields sharing the last character `7` parse
identically. -/
theorem parse_uses_last_character_witness :
    parseCategoryValue "a-7" = parseCategoryValue "b-7" ∧
    parseCategoryValue " related-10 " = some 0 ∧
    clean_data [⟨["1", "m"], "related-10;child_alone-0"⟩] =
      some (["related0"], [(["1", "m"], [0])]) ∧
    clean_data [⟨["1", "m"], "related-x;child_alone-0"⟩] = none :=
  parse_uses_last_character "a-7" "b-7" (by decide)

/-! ## Claims about `tokenize` and `StartingVerbExtractor` -/

theorem startingVerbLoop_any (tagOf : String → List (String × String)) :
    ∀ ss : List String, (∀ s ∈ ss, tagOf s ≠ []) →
      startingVerbLoop tagOf ss = some (ss.any (sentenceFlag tagOf)) := by
  intro ss
  induction ss with
  | nil => intro _; simp [startingVerbLoop]
  | cons s rest ih =>
    intro h
    cases htag : tagOf s with
    | nil => exact absurd htag (h s (List.mem_cons_self s rest))
    | cons p tl =>
      obtain ⟨w, t⟩ := p
      by_cases hc : t = "VB" ∨ t = "VBP" ∨ w = "RT"
      · simp [startingVerbLoop, htag, hc, sentenceFlag]
      · simp only [startingVerbLoop, htag, if_neg hc]
        rw [ih (fun x hx => h x (List.mem_cons_of_mem s hx))]
        simp [List.any_cons, sentenceFlag, htag, hc]

/-- Claim C3 (counterexample): a message whose first sentence does not start
with a verb but whose second sentence does is classified `true` by
`starting_verb`, while the first-sentence-only reading gives `false`: the
loop inspects every sentence, not only the first. -/
theorem starting_verb_uses_later_sentences :
    starting_verb cxWordTok cxLem cxPosTag cxSentTok "msg" = some true ∧
    starting_verb_first_spec cxWordTok cxLem cxPosTag cxSentTok "msg" = some false := by
  constructor
  · decide
  · decide

/-- Claim C3 (amended): whenever every sentence produces at least one tagged
token, the per-message boolean is true iff SOME sentence (scanned in order)
has a first token tagged `VB`/`VBP` or equal to the literal `RT`. -/
theorem starting_verb_any_sentence (wordTok : String → List String) (lem : String → String)
    (posTag : List String → List (String × String)) (sentTok : String → List String)
    (text : String)
    (h : ∀ s ∈ sentTok text, posTag (tokenize wordTok lem s) ≠ []) :
    starting_verb wordTok lem posTag sentTok text =
      some ((sentTok text).any (sentenceFlag (fun s => posTag (tokenize wordTok lem s)))) :=
  startingVerbLoop_any _ (sentTok text) h

/-- Claim C3 (witness): the amended statement evaluated on the two-sentence
example. -/
theorem starting_verb_any_sentence_witness :
    starting_verb cxWordTok cxLem cxPosTag cxSentTok "note" =
      some ((cxSentTok "note").any
        (sentenceFlag (fun s => cxPosTag (tokenize cxWordTok cxLem s)))) :=
  starting_verb_any_sentence cxWordTok cxLem cxPosTag cxSentTok "note" (by decide)

/-- Claim C4: tokenizing an empty string yields no tokens and a message with
no sentences is classified `false`, but a sentence whose tokenization yields
no tokens makes `starting_verb` evaluate `pos_tags[0]` on an empty list — an
`IndexError` (modelled as `none`) instead of the required `false`. -/
theorem starting_verb_empty_sentence_crashes :
    tokenize noTokWT cxLem "" = [] ∧
    starting_verb noTokWT cxLem posTagNN noSentence "" = some false ∧
    starting_verb noTokWT cxLem posTagNN oneEmptySentence "" = none := by
  refine ⟨by decide, by decide, by decide⟩

/-- Claim C7: on `"Check http://example.com/path now"` the URL matcher finds
exactly the URL, every occurrence is replaced by the placeholder before
word-splitting, and — for a word tokenizer and lemmatizer behaving as NLTK
does on the replaced text — the placeholder comes out as its own token with
no URL fragment tokens. -/
theorem tokenize_replaces_urls (wordTok : String → List String) (lem : String → String)
    (hwt : wordTok "Check urlplaceholder now" = ["Check", "urlplaceholder", "now"])
    (hl1 : lem "Check" = "Check") (hl2 : lem "urlplaceholder" = "urlplaceholder")
    (hl3 : lem "now" = "now") :
    findUrls "Check http://example.com/path now" = ["http://example.com/path"] ∧
    replaceUrls "Check http://example.com/path now" = "Check urlplaceholder now" ∧
    tokenize wordTok lem "Check http://example.com/path now" =
      ["check", "urlplaceholder", "now"] := by
  refine ⟨by decide, by decide, ?_⟩
  show (wordTok (replaceUrls "Check http://example.com/path now")).map
      (fun w => strStrip (strLower (lem w))) = _
  rw [show replaceUrls "Check http://example.com/path now" = "Check urlplaceholder now"
    from by decide, hwt]
  rw [List.map_cons, List.map_cons, List.map_cons, List.map_nil, hl1, hl2, hl3]
  decide

/-- Claim C7 (witness): the statement evaluated at a concrete tokenizer and
the identity lemmatizer. -/
theorem tokenize_replaces_urls_witness :
    findUrls "Check http://example.com/path now" = ["http://example.com/path"] ∧
    replaceUrls "Check http://example.com/path now" = "Check urlplaceholder now" ∧
    tokenize wt7 cxLem "Check http://example.com/path now" =
      ["check", "urlplaceholder", "now"] :=
  tokenize_replaces_urls wt7 cxLem (by decide) (by decide) (by decide) (by decide)

/-! ## Claims about `multioutput_fscore` -/

theorem tpCount_le_count_yp (c : ℚ) (yt yp : List ℚ) (h : yt.length = yp.length) :
    tpCount c yt yp ≤ yp.count c :=
  calc tpCount c yt yp
      ≤ (yt.zip yp).countP (fun ab => ab.2 == c) :=
        List.countP_mono_left (fun x _ hx => ((Bool.and_eq_true _ _).mp hx).2)
    _ = ((yt.zip yp).map Prod.snd).countP (fun x => x == c) :=
        (List.countP_map (fun x => x == c) Prod.snd (yt.zip yp)).symm
    _ = yp.countP (fun x => x == c) := by
        rw [List.map_snd_zip yt yp (le_of_eq h.symm)]
    _ = yp.count c := rfl

theorem tpCount_le_count_yt (c : ℚ) (yt yp : List ℚ) (h : yt.length = yp.length) :
    tpCount c yt yp ≤ yt.count c :=
  calc tpCount c yt yp
      ≤ (yt.zip yp).countP (fun ab => ab.1 == c) :=
        List.countP_mono_left (fun x _ hx => ((Bool.and_eq_true _ _).mp hx).1)
    _ = ((yt.zip yp).map Prod.fst).countP (fun x => x == c) :=
        (List.countP_map (fun x => x == c) Prod.fst (yt.zip yp)).symm
    _ = yt.countP (fun x => x == c) := by
        rw [List.map_fst_zip yt yp (le_of_eq h)]
    _ = yt.count c := rfl

theorem precisionC_nonneg (c : ℚ) (yt yp : List ℚ) : 0 ≤ precisionC c yt yp := by
  unfold precisionC
  split_ifs
  · exact le_refl 0
  · positivity

theorem recallC_nonneg (c : ℚ) (yt yp : List ℚ) : 0 ≤ recallC c yt yp := by
  unfold recallC
  split_ifs
  · exact le_refl 0
  · positivity

theorem precisionC_le_one (c : ℚ) (yt yp : List ℚ) (h : yt.length = yp.length) :
    precisionC c yt yp ≤ 1 := by
  unfold precisionC
  split_ifs with hc
  · exact zero_le_one
  · rw [div_le_one (by exact_mod_cast Nat.pos_of_ne_zero hc)]
    exact_mod_cast tpCount_le_count_yp c yt yp h

theorem recallC_le_one (c : ℚ) (yt yp : List ℚ) (h : yt.length = yp.length) :
    recallC c yt yp ≤ 1 := by
  unfold recallC
  split_ifs with hc
  · exact zero_le_one
  · rw [div_le_one (by exact_mod_cast Nat.pos_of_ne_zero hc)]
    exact_mod_cast tpCount_le_count_yt c yt yp h

theorem fbetaC_le_one (beta c : ℚ) (yt yp : List ℚ) (h : yt.length = yp.length) :
    fbetaC beta c yt yp ≤ 1 := by
  unfold fbetaC
  split_ifs with hd
  · exact zero_le_one
  · have hp0 := precisionC_nonneg c yt yp
    have hr0 := recallC_nonneg c yt yp
    have hp1 := precisionC_le_one c yt yp h
    have hr1 := recallC_le_one c yt yp h
    have hdpos : 0 < beta ^ 2 * precisionC c yt yp + recallC c yt yp :=
      lt_of_le_of_ne (add_nonneg (mul_nonneg (sq_nonneg beta) hp0) hr0) (Ne.symm hd)
    rw [div_le_one hdpos]
    have h1 : precisionC c yt yp * recallC c yt yp ≤ recallC c yt yp :=
      mul_le_of_le_one_left hr0 hp1
    have h2 : beta ^ 2 * (precisionC c yt yp * recallC c yt yp) ≤
        beta ^ 2 * precisionC c yt yp :=
      mul_le_mul_of_nonneg_left (mul_le_of_le_one_right hp0 hr1) (sq_nonneg beta)
    nlinarith [h1, h2]

theorem fbeta_weighted_le_one (yt yp : List ℚ) (beta : ℚ) (h : yt.length = yp.length) :
    fbeta_weighted yt yp beta ≤ 1 := by
  unfold fbeta_weighted
  split_ifs with ht
  · exact zero_le_one
  · have hnonneg : 0 ≤ ((yt ++ yp).dedup.map (fun c => (yt.count c : ℚ))).sum :=
      List.sum_nonneg (by
        intro x hx
        obtain ⟨c, _, rfl⟩ := List.mem_map.mp hx
        positivity)
    rw [div_le_one (lt_of_le_of_ne hnonneg (Ne.symm ht))]
    refine List.sum_le_sum ?_
    intro c _
    exact mul_le_of_le_one_right (by positivity) (fbetaC_le_one beta c yt yp h)

theorem f1score_list_le_one (yt yp : List (List ℚ)) (beta : ℚ)
    (h : yt.length = yp.length) : ∀ s ∈ f1score_list yt yp beta, s ≤ 1 := by
  intro s hs
  unfold f1score_list at hs
  obtain ⟨j, _, rfl⟩ := List.mem_map.mp hs
  exact fbeta_weighted_le_one _ _ _ (by simp [columnOf, h])

theorem filter_lt_one_of_le_one (l : List ℚ) (h : ∀ x ∈ l, x ≤ 1) :
    l.filter (fun s => decide (s < 1)) = l.filter (fun s => decide (s ≠ 1)) := by
  apply List.filter_congr
  intro x hx
  by_cases hx1 : x = 1
  · simp [hx1]
  · simp [hx1, lt_of_le_of_ne (h x hx) hx1]

/-- Claim C1: for equally-shaped label matrices, `multioutput_fscore`
computes one weighted F-beta score per label column and its filter
`f1score[f1score < 1]` removes exactly the scores equal to 1.0 (every score
is at most 1), returning the geometric mean of the remaining scores — the
evaluator the spec describes. -/
theorem multioutput_fscore_drops_perfect (yt yp : List (List ℚ)) (beta : ℚ)
    (h : yt.length = yp.length) :
    multioutput_fscore yt yp beta = evaluator_score_spec yt yp beta ∧
    (f1score_list yt yp beta).length = numCols yt := by
  refine ⟨?_, by simp [f1score_list]⟩
  unfold multioutput_fscore evaluator_score_spec
  rw [filter_lt_one_of_le_one _ (f1score_list_le_one yt yp beta h)]

/-- Claim C1 (witness): the evaluator agrees with its specification reading
on a concrete 2×2 prediction. -/
theorem multioutput_fscore_drops_perfect_witness :
    multioutput_fscore [[1, 0], [0, 1]] [[1, 1], [0, 1]] 1 =
      evaluator_score_spec [[1, 0], [0, 1]] [[1, 1], [0, 1]] 1 ∧
    (f1score_list [[1, 0], [0, 1]] [[1, 1], [0, 1]] 1).length =
      numCols [[1, 0], [0, 1]] :=
  multioutput_fscore_drops_perfect [[1, 0], [0, 1]] [[1, 1], [0, 1]] 1 (by decide)

/-- Claim C2: when every per-column score equals 1.0, the filtered score
list is empty and `multioutput_fscore` returns the undefined-geometric-mean
marker (`scipy.stats.gmean` of an empty array is NaN, modelled `none`): no
crash, and no fabricated numeric placeholder. -/
theorem multioutput_fscore_all_perfect (yt yp : List (List ℚ)) (beta : ℚ)
    (h : ∀ s ∈ f1score_list yt yp beta, s = 1) :
    multioutput_fscore yt yp beta = none := by
  unfold multioutput_fscore
  have hempty : (f1score_list yt yp beta).filter (fun s => decide (s < 1)) = [] := by
    rw [List.filter_eq_nil_iff]
    intro a ha
    simp [h a ha]
  rw [hempty]
  simp [gmeanOpt]

/-- Claim C2 (witness): a perfect single-column prediction produces the
degenerate `none` result. -/
theorem multioutput_fscore_all_perfect_witness :
    multioutput_fscore [[1]] [[1]] 1 = none :=
  multioutput_fscore_all_perfect [[1]] [[1]] 1 (by
    have hval : f1score_list [[1]] [[1]] 1 = [1] := by
      norm_num [f1score_list, numCols, columnOf, fbeta_weighted, fbetaC, precisionC,
        recallC, tpCount]
    rw [hval]
    simp)

/-! ## Claim about the grid search -/

theorem selectBest_foldl_spec (f : ℚ × ℕ → ℚ) :
    ∀ (ps : List (ℚ × ℕ)) (p : ℚ × ℕ),
      (ps.foldl (fun best q => if f best < f q then q else best) p) ∈ p :: ps ∧
      ∀ q ∈ p :: ps, f q ≤ f (ps.foldl (fun best q => if f best < f q then q else best) p) := by
  intro ps
  induction ps with
  | nil =>
    intro p
    refine ⟨List.mem_cons_self _ _, ?_⟩
    intro q hq
    rcases List.mem_cons.mp hq with rfl | hq'
    · exact le_refl _
    · simp at hq'
  | cons x xs ih =>
    intro p
    rw [List.foldl_cons]
    by_cases hpx : f p < f x
    · rw [if_pos hpx]
      obtain ⟨hmem, hmax⟩ := ih x
      constructor
      · rcases List.mem_cons.mp hmem with h1 | h1
        · rw [h1]; exact List.mem_cons_of_mem _ (List.mem_cons_self _ _)
        · exact List.mem_cons_of_mem _ (List.mem_cons_of_mem _ h1)
      · intro q hq
        rcases List.mem_cons.mp hq with rfl | hq'
        · exact le_trans (le_of_lt hpx) (hmax x (List.mem_cons_self _ _))
        · exact hmax q hq'
    · rw [if_neg hpx]
      obtain ⟨hmem, hmax⟩ := ih p
      constructor
      · rcases List.mem_cons.mp hmem with h1 | h1
        · rw [h1]; exact List.mem_cons_self _ _
        · exact List.mem_cons_of_mem _ (List.mem_cons_of_mem _ h1)
      · intro q hq
        rcases List.mem_cons.mp hq with rfl | hq'
        · exact hmax q (List.mem_cons_self _ _)
        · rcases List.mem_cons.mp hq' with rfl | hq''
          · exact le_trans (le_of_not_lt hpx) (hmax p (List.mem_cons_self _ _))
          · exact hmax q (List.mem_cons_of_mem _ hq'')

/-- Claim C8: the declared grid is the full product of the three learning
rates and three ensemble sizes (9 points, containing every combination), and
the search — k-fold cross-validated mean scoring modelled from spec §4.6 —
returns a grid point with maximal mean score together with the classifier
refit on the full training set. -/
theorem grid_search_selects_best {D M : Type} (folds : List (D × D))
    (fit : ℚ × ℕ → D → M) (score : M → D → ℚ) (fullTrain : D) (lr : ℚ) (n : ℕ)
    (hlr : lr ∈ learning_rate_candidates) (hn : n ∈ n_estimators_candidates) :
    param_grid.length = 9 ∧ (lr, n) ∈ param_grid ∧
    ∃ p, gridSearch param_grid folds fit score fullTrain = some (p, fit p fullTrain) ∧
      p ∈ param_grid ∧
      ∀ q ∈ param_grid, cvMeanScore folds fit score q ≤ cvMeanScore folds fit score p := by
  refine ⟨rfl, List.mem_flatMap.mpr ⟨lr, hlr, List.mem_map.mpr ⟨n, hn, rfl⟩⟩, ?_⟩
  obtain ⟨hmem, hmax⟩ := selectBest_foldl_spec (cvMeanScore folds fit score)
    [(1/100, 20), (1/100, 40), (2/100, 10), (2/100, 20), (2/100, 40),
     (5/100, 10), (5/100, 20), (5/100, 40)] (1/100, 10)
  exact ⟨_, rfl, hmem, hmax⟩

/-- Claim C8 (witness): the search statement evaluated at a trivial dataset
type and the first grid point. -/
theorem grid_search_selects_best_witness :
    param_grid.length = 9 ∧ ((1/100 : ℚ), (10 : ℕ)) ∈ param_grid ∧
    ∃ p, gridSearch param_grid ([] : List (Unit × Unit)) trivFit trivScore () =
        some (p, trivFit p ()) ∧
      p ∈ param_grid ∧
      ∀ q ∈ param_grid, cvMeanScore ([] : List (Unit × Unit)) trivFit trivScore q ≤
        cvMeanScore ([] : List (Unit × Unit)) trivFit trivScore p :=
  grid_search_selects_best [] trivFit trivScore () (1/100) 10
    (List.mem_cons_self _ _) (List.mem_cons_self _ _)

end DisasterPipeline
